import Mathlib

/-!
Verification development for the Human Execution Protocol (HXP) reference
server (`server/server.js`): a shallow embedding of the request lifecycle
engine — the in-memory request store, payload/result validation, the
resolve / cancel endpoints, the timeout callback, and the human inbox
listing — together with theorems about its lifecycle invariants.

Modelling conventions:
* JavaScript values appearing as resolution results are modelled by `Jval`
  (null/undefined collapse to `Jval.jnull`; `JSON.stringify` is modelled by
  `jsonStringify`).
* Timestamps are opaque ISO-8601 strings supplied by the environment: each
  `new Date().toISOString()` read in the source becomes an explicit string
  parameter, in source evaluation order.  `duration_seconds`, which the
  source derives by date arithmetic on two such strings, is likewise passed
  in as a parameter.
* `crypto.createHash('sha256')...digest('hex')` is modelled by an abstract
  digest function carried in `Config` together with the server secret; the
  theorems hold for every digest function, SHA-256 being the intended
  instance.
* The `requests` `Map` is modelled as an association list in insertion
  order; `Map.get`/`Map.set` become `getReq`/`setReq`.
-/

/-- A JavaScript value as far as the engine inspects one: `jnull` covers
both `null` and `undefined` (the source only ever tests them together). -/
inductive Jval where
  | jnull
  | jstr (s : String)
  | jnum (n : Int)
  | jbool (b : Bool)
  deriving DecidableEq

/-- JSON string escaping for the two characters that matter in the strings
the engine builds (backslash and double quote). -/
def jsonEscapeChar (c : Char) : String :=
  if c = '\\' then "\\\\" else if c = '"' then "\\\"" else String.singleton c

def jsonEscape (s : String) : String :=
  String.join (s.toList.map jsonEscapeChar)

/-- `JSON.stringify` on the values of `Jval`. -/
def jsonStringify : Jval → String
  | Jval.jnull => "null"
  | Jval.jstr s => "\"" ++ jsonEscape s ++ "\""
  | Jval.jnum n => toString n
  | Jval.jbool b => if b then "true" else "false"

/-- Engine configuration: the abstract SHA-256 hex digest function and
`SERVER_SECRET`. -/
structure Config where
  digest : String → String
  secret : String

/-- `generateEvidenceHash(requestId, result, completedAt)` from the source:
digest of `` `${requestId}:${JSON.stringify(result)}:${completedAt}:${SERVER_SECRET}` ``. -/
def generateEvidenceHash (cfg : Config) (requestId : String) (result : Jval)
    (completedAt : String) : String :=
  cfg.digest (requestId ++ ":" ++ jsonStringify result ++ ":" ++ completedAt
    ++ ":" ++ cfg.secret)

/-- The payload fields the engine reads.  The source's payload is a free-form
JSON object; these are exactly the fields `validatePayload`,
`validateResult`, the resolve handler and the timeout callback inspect.
String-valued fields model the source's truthiness tests via
`Option String` (`none` = absent, `some ""` = present but falsy). -/
structure Payload where
  question : Option String := none
  options : List String := []
  default_option : Option String := none
  item : Option String := none
  reject_requires_reason : Bool := false
  prompt : Option String := none
  input_type : Option String := none
  deriving DecidableEq

/-- JS truthiness of an optional string: present and non-empty. -/
def truthyStr : Option String → Bool
  | some s => s ≠ ""
  | none => false

/-- Receipt object as built by the resolve handler and the timeout
callback. -/
structure Receipt where
  request_id : String
  status : String
  result : Jval
  reason : Option String
  completed_by : String
  completed_at : String
  duration_seconds : Int
  evidence_hash : String
  deriving DecidableEq

/-- Stored request entity. -/
structure Request where
  request_id : String
  action : String
  role : String
  priority : String
  timeout_seconds : Nat
  fallback : String
  agent_id : String
  project_id : Option String
  metadata : List (String × String)
  payload : Payload
  status : String
  created_at : String
  expires_at : Option String
  receipt : Option Receipt
  deriving DecidableEq

def VALID_ACTIONS : List String := ["DECIDE", "APPROVE", "PROVIDE"]
def VALID_ROLES : List String := ["owner", "delegate", "pool"]
def VALID_PRIORITIES : List String := ["low", "normal", "high", "critical"]
def VALID_FALLBACKS : List String := ["pause", "fail", "default"]

/-- `validatePayload(action, payload)`: `none` = valid, `some msg` = the
error message returned. -/
def validatePayload (action : String) (p : Payload) : Option String :=
  if action = "DECIDE" then
    if ¬ truthyStr p.question then
      some "DECIDE requires a \"question\" string in payload"
    else if p.options.length < 2 ∨ p.options.length > 6 then
      some "DECIDE requires \"options\" array with 2-6 items"
    else none
  else if action = "APPROVE" then
    if ¬ truthyStr p.item then
      some "APPROVE requires an \"item\" string in payload"
    else none
  else if action = "PROVIDE" then
    if ¬ truthyStr p.prompt then
      some "PROVIDE requires a \"prompt\" string in payload"
    else if ¬ truthyStr p.input_type then
      some "PROVIDE requires an \"input_type\" in payload"
    else none
  else some ("Unknown action: " ++ action)

/-- `request.payload.options.includes(result)`: JS `includes` uses strict
equality, so only a string result can match an options element. -/
def includesJ (opts : List String) (v : Jval) : Bool :=
  match v with
  | Jval.jstr s => opts.contains s
  | _ => false

/-- `validateResult(request, result)`: `none` = valid, `some msg` = the
message of the 422 error. -/
def validateResult (r : Request) (result : Jval) : Option String :=
  if r.action = "DECIDE" then
    if ¬ includesJ r.payload.options result then
      some ("Result must be one of: " ++ String.intercalate ", " r.payload.options)
    else none
  else if r.action = "APPROVE" then
    if result ≠ Jval.jstr "approved" ∧ result ≠ Jval.jstr "rejected" then
      some "Result must be \"approved\" or \"rejected\""
    else none
  else if r.action = "PROVIDE" then
    if result = Jval.jnull ∨ result = Jval.jstr "" then
      some "PROVIDE result cannot be empty"
    else none
  else none

/-- The in-memory `requests` Map: association list in insertion order. -/
abbrev Store := List (String × Request)

/-- `requests.get(id)`. -/
def getReq (st : Store) (id : String) : Option Request :=
  List.lookup id st

/-- `requests.set(id, r)`: replace the binding if present, else append
(JS `Map.set` keeps insertion order for existing keys and appends new
ones). -/
def setReq : Store → String → Request → Store
  | [], id, r => [(id, r)]
  | (k, v) :: rest, id, r =>
      if k = id then (k, r) :: rest else (k, v) :: setReq rest id r

/-- Error responses of the engine endpoints relevant to the lifecycle. -/
inductive ApiErr where
  | notFound
  | conflict
  | expiredConflict
  | missingResult
  | invalidResult (msg : String)
  | reasonRequired
  deriving DecidableEq

/-- The HTTP status code each error is sent with. -/
def httpStatus : ApiErr → Nat
  | ApiErr.notFound => 404
  | ApiErr.conflict => 409
  | ApiErr.expiredConflict => 409
  | ApiErr.missingResult => 400
  | ApiErr.invalidResult _ => 422
  | ApiErr.reasonRequired => 422

/-- A lifecycle event published to WebSocket subscribers via
`notifySubscribers`. -/
structure Event where
  event : String
  receipt : Option Receipt
  deriving DecidableEq

/-- Body of `POST /hxp/v1/requests` after JSON parsing, with the source's
destructuring defaults. -/
structure CreateInput where
  action : String
  role : String := "owner"
  priority : String := "normal"
  timeout_seconds : Nat := 0
  fallback : String := "pause"
  agent_id : Option String := none
  project_id : Option String := none
  metadata : List (String × String) := []
  payload : Payload := {}
  deriving DecidableEq

inductive CreateErr where
  | invalidAction
  | invalidRole
  | invalidPayload (msg : String)
  deriving DecidableEq

structure CreateOut where
  response : Except CreateErr Request
  store : Store

/-- The request object the create handler stores (`agent_id || 'unknown'`
and `project_id || null` map falsy values through JS truthiness). -/
def newRequest (input : CreateInput) (now requestId expIso : String) : Request :=
  { request_id := requestId
    action := input.action
    role := input.role
    priority := input.priority
    timeout_seconds := input.timeout_seconds
    fallback := input.fallback
    agent_id := match input.agent_id with
      | some s => if s = "" then "unknown" else s
      | none => "unknown"
    project_id := match input.project_id with
      | some s => if s = "" then none else some s
      | none => none
    metadata := input.metadata
    payload := input.payload
    status := "pending"
    created_at := now
    expires_at := if input.timeout_seconds > 0 then some expIso else none
    receipt := none }

/-- `POST /hxp/v1/requests`.  `now` is the `new Date().toISOString()` read,
`requestId` the freshly generated id, `expIso` the environment's rendering
of `Date.now() + timeout_seconds * 1000` (used only when
`timeout_seconds > 0`). -/
def createRequest (input : CreateInput) (now requestId expIso : String)
    (st : Store) : CreateOut :=
  if ¬ VALID_ACTIONS.contains input.action then
    ⟨Except.error CreateErr.invalidAction, st⟩
  else if ¬ VALID_ROLES.contains input.role then
    ⟨Except.error CreateErr.invalidRole, st⟩
  else
    match validatePayload input.action input.payload with
    | some msg => ⟨Except.error (CreateErr.invalidPayload msg), st⟩
    | none =>
        ⟨Except.ok (newRequest input now requestId expIso),
          setReq st requestId (newRequest input now requestId expIso)⟩

structure ResolveOut where
  response : Except ApiErr Receipt
  store : Store
  events : List Event

/-- The receipt object the resolve handler builds on success
(`reason: reason || null` maps a falsy reason to `null`). -/
def resolveReceipt (cfg : Config) (id : String) (result : Jval)
    (reason : Option String) (humanId now : String) (dur : Int) : Receipt :=
  { request_id := id
    status := "completed"
    result := result
    reason := if truthyStr reason then reason else none
    completed_by := humanId
    completed_at := now
    duration_seconds := dur
    evidence_hash := generateEvidenceHash cfg id result now }

/-- `POST /hxp/v1/requests/:id/resolve`.  `humanId` is the authenticated
human identity, `now` the single `completedAt` clock read, `dur` the
`duration_seconds` the source computes by date arithmetic from `now` and
`created_at`. -/
def resolve (cfg : Config) (st : Store) (id : String) (result : Jval)
    (reason : Option String) (humanId now : String) (dur : Int) : ResolveOut :=
  match getReq st id with
  | none => ⟨Except.error ApiErr.notFound, st, []⟩
  | some r =>
      if r.status = "completed" ∨ r.status = "cancelled" then
        ⟨Except.error ApiErr.conflict, st, []⟩
      else if r.status = "expired" then
        ⟨Except.error ApiErr.expiredConflict, st, []⟩
      else if result = Jval.jnull then
        ⟨Except.error ApiErr.missingResult, st, []⟩
      else
        match validateResult r result with
        | some msg => ⟨Except.error (ApiErr.invalidResult msg), st, []⟩
        | none =>
            if r.action = "APPROVE" ∧ result = Jval.jstr "rejected"
                ∧ r.payload.reject_requires_reason ∧ ¬ truthyStr reason then
              ⟨Except.error ApiErr.reasonRequired, st, []⟩
            else
              ⟨Except.ok (resolveReceipt cfg id result reason humanId now dur),
                setReq st id
                  { r with
                    status := "completed",
                    receipt := some (resolveReceipt cfg id result reason humanId now dur) },
                [⟨"completed", some (resolveReceipt cfg id result reason humanId now dur)⟩]⟩

structure CancelOut where
  response : Except ApiErr Unit
  store : Store
  events : List Event

/-- `POST /hxp/v1/requests/:id/cancel`. -/
def cancel (st : Store) (id : String) : CancelOut :=
  match getReq st id with
  | none => ⟨Except.error ApiErr.notFound, st, []⟩
  | some r =>
      if r.status ≠ "pending" ∧ r.status ≠ "assigned" then
        ⟨Except.error ApiErr.conflict, st, []⟩
      else
        ⟨Except.ok (), setReq st id { r with status := "cancelled" },
          [⟨"cancelled", none⟩]⟩

structure FireOut where
  store : Store
  events : List Event

/-- The synthetic receipt the timeout callback builds on the
fallback-default path.  `completed_at` receives the first clock read and
`evidence_hash` is computed over the second, separate clock read, exactly
as the two `new Date().toISOString()` calls appear in the source. -/
def syntheticReceipt (cfg : Config) (requestId : String) (payload : Payload)
    (timeoutSeconds : Nat) (now1 now2 : String) : Receipt :=
  { request_id := requestId
    status := "completed"
    result := Jval.jstr (payload.default_option.getD "")
    reason := some "Timeout — default option applied"
    completed_by := "system"
    completed_at := now1
    duration_seconds := (timeoutSeconds : Int)
    evidence_hash := generateEvidenceHash cfg requestId
      (Jval.jstr (payload.default_option.getD "")) now2 }

/-- The `setTimeout` callback armed by `POST /hxp/v1/requests` when
`timeout_seconds > 0`.  `fallback`, `action`, `payload` and
`timeoutSeconds` are the values captured by the closure at creation time
(they coincide with the stored request's, since no operation mutates
them).  `now1` is the clock read assigned to `completed_at`, `now2` the
separate clock read passed to `generateEvidenceHash` — the source performs
two distinct `new Date().toISOString()` calls, in that order. -/
def timeoutFire (cfg : Config) (st : Store) (requestId : String)
    (fallback action : String) (payload : Payload) (timeoutSeconds : Nat)
    (now1 now2 : String) : FireOut :=
  match getReq st requestId with
  | none => ⟨st, []⟩
  | some r =>
      if r.status = "pending" then
        if fallback = "default" ∧ action = "DECIDE"
            ∧ truthyStr payload.default_option then
          ⟨setReq st requestId
              { r with
                status := "completed",
                receipt := some (syntheticReceipt cfg requestId payload timeoutSeconds now1 now2) },
            [⟨"completed", some (syntheticReceipt cfg requestId payload timeoutSeconds now1 now2)⟩]⟩
        else
          ⟨setReq st requestId { r with status := "expired" }, [⟨"expired", none⟩]⟩
      else ⟨st, []⟩

/-- The `priorityOrder` object literal: `critical:0, high:1, normal:2,
low:3`, `none` for any other key. -/
def prioLookup (p : String) : Option Nat :=
  if p = "critical" then some 0
  else if p = "high" then some 1
  else if p = "normal" then some 2
  else if p = "low" then some 3
  else none

/-- `priorityOrder[a.priority] || 2`: JS `||` replaces the falsy `0` of
`critical` by the default `2`. -/
def prioVal (p : String) : Nat :=
  match prioLookup p with
  | some v => if v = 0 then 2 else v
  | none => 2

/-- The inbox sort comparator.  The source compares creation instants via
`new Date(b.created_at) - new Date(a.created_at)`; ISO-8601 timestamps
compare chronologically as strings, which is how the date subtraction's
sign is modelled here. -/
def cmpInbox (a b : Request) : Int :=
  let pDiff : Int := (prioVal a.priority : Int) - (prioVal b.priority : Int)
  if pDiff ≠ 0 then pDiff
  else if a.created_at = b.created_at then 0
  else if b.created_at < a.created_at then -1
  else 1

structure InboxOut where
  requests : List Request
  total : Nat
  unresolved : Nat
  deriving DecidableEq

/-- The inbox status filter:
`Array.from(requests.values()).filter(r => r.status === status || r.status === 'assigned')`. -/
def inboxBase (st : Store) (status : String) : List Request :=
  (st.map (fun p => p.2)).filter
    (fun r => decide (r.status = status) || decide (r.status = "assigned"))

/-- `if (priority) results = results.filter(r => r.priority === priority)`
(JS truthiness: an empty-string query parameter applies no filter). -/
def applyPrioFilter (priorityQ : Option String) (l : List Request) : List Request :=
  match priorityQ with
  | some p => if p ≠ "" then l.filter (fun r => decide (r.priority = p)) else l
  | none => l

/-- `if (action) results = results.filter(r => r.action === action)`. -/
def applyActionFilter (actionQ : Option String) (l : List Request) : List Request :=
  match actionQ with
  | some a => if a ≠ "" then l.filter (fun r => decide (r.action = a)) else l
  | none => l

/-- The filtered and sorted inbox result list.  The `status` destructuring
default `'pending'` applies only when the parameter is absent.  The
source's in-place `Array.prototype.sort` (stable in modern engines) is
modelled by a stable insertion sort with the same comparator. -/
def inboxResults (st : Store) (statusQ priorityQ actionQ : Option String) : List Request :=
  List.insertionSort (fun a b => cmpInbox a b ≤ 0)
    (applyActionFilter actionQ (applyPrioFilter priorityQ (inboxBase st (statusQ.getD "pending"))))

/-- `GET /hxp/v1/inbox`: the response body `{requests, total, unresolved}`. -/
def inbox (st : Store) (statusQ priorityQ actionQ : Option String) : InboxOut :=
  ⟨inboxResults st statusQ priorityQ actionQ,
    (inboxResults st statusQ priorityQ actionQ).length,
    ((inboxResults st statusQ priorityQ actionQ).filter
      (fun r => decide (r.status = "pending"))).length⟩

/-- The reachable stores of the engine: the empty initial map, closed under
the four mutating entry points.  The timeout-fire step quantifies over
arbitrary captured closure values, a superset of the real timers (which
capture the creation-time values of the fired request). -/
inductive Reachable (cfg : Config) : Store → Prop where
  | init : Reachable cfg []
  | createStep (st : Store) (input : CreateInput) (now id exp : String) :
      Reachable cfg st → Reachable cfg (createRequest input now id exp st).store
  | resolveStep (st : Store) (id : String) (result : Jval)
      (reason : Option String) (humanId now : String) (dur : Int) :
      Reachable cfg st →
      Reachable cfg (resolve cfg st id result reason humanId now dur).store
  | cancelStep (st : Store) (id : String) :
      Reachable cfg st → Reachable cfg (cancel st id).store
  | fireStep (st : Store) (id fb act : String) (p : Payload) (ts : Nat)
      (t1 t2 : String) :
      Reachable cfg st → Reachable cfg (timeoutFire cfg st id fb act p ts t1 t2).store

/-! ### Store lemmas -/

theorem mem_setReq : ∀ {st : Store} {id : String} {r : Request}
    {p : String × Request}, p ∈ setReq st id r → p = (id, r) ∨ p ∈ st := by
  intro st
  induction st with
  | nil =>
      intro id r p h
      simp only [setReq, List.mem_singleton] at h
      exact Or.inl h
  | cons q rest ih =>
      intro id r p h
      obtain ⟨k, v⟩ := q
      simp only [setReq] at h
      split at h
      next hk =>
        rcases List.mem_cons.mp h with h1 | h2
        · exact Or.inl (by rw [h1, hk])
        · exact Or.inr (List.mem_cons_of_mem _ h2)
      next hk =>
        rcases List.mem_cons.mp h with h1 | h2
        · exact Or.inr (h1 ▸ List.mem_cons_self _ _)
        · rcases ih h2 with h3 | h4
          · exact Or.inl h3
          · exact Or.inr (List.mem_cons_of_mem _ h4)

theorem getReq_setReq_self : ∀ (st : Store) (id : String) (r : Request),
    getReq (setReq st id r) id = some r := by
  intro st
  induction st with
  | nil => intro id r; simp [getReq, setReq, List.lookup]
  | cons q rest ih =>
      intro id r
      obtain ⟨k, v⟩ := q
      simp only [setReq]
      by_cases hk : k = id
      · rw [if_pos hk]
        subst hk
        simp [getReq, List.lookup]
      · rw [if_neg hk]
        have hne : (id == k) = false := beq_eq_false_iff_ne.mpr (fun hc => hk hc.symm)
        simp [getReq, List.lookup, hne]
        exact ih id r

theorem mem_of_getReq : ∀ {st : Store} {id : String} {r : Request},
    getReq st id = some r → (id, r) ∈ st := by
  intro st
  induction st with
  | nil => intro id r h; simp [getReq, List.lookup] at h
  | cons q rest ih =>
      intro id r h
      obtain ⟨k, v⟩ := q
      simp only [getReq, List.lookup] at h
      split at h
      next hk =>
        have hik : id = k := beq_iff_eq.mp hk
        have hv : v = r := Option.some.inj h
        subst hik
        subst hv
        exact List.mem_cons_self _ _
      next hk =>
        exact List.mem_cons_of_mem _ (ih h)

/-! ### The receipt and status invariants -/

/-- A store satisfies the receipt invariant when every stored request has a
receipt exactly when its status is `completed`. -/
def receiptInv (st : Store) : Prop :=
  ∀ p ∈ st, ((p : String × Request).2.receipt.isSome ↔ p.2.status = "completed")

/-- Every status a stored request can carry. -/
def statusInv (st : Store) : Prop :=
  ∀ p ∈ st, (p : String × Request).2.status ∈
    (["pending", "completed", "cancelled", "expired"] : List String)

theorem receiptInv_setReq {st : Store} {id : String} {r2 : Request}
    (h : receiptInv st) (h2 : r2.receipt.isSome ↔ r2.status = "completed") :
    receiptInv (setReq st id r2) := by
  intro p hp
  rcases mem_setReq hp with rfl | hp'
  · exact h2
  · exact h p hp'

theorem statusInv_setReq {st : Store} {id : String} {r2 : Request}
    (h : statusInv st)
    (h2 : r2.status ∈ (["pending", "completed", "cancelled", "expired"] : List String)) :
    statusInv (setReq st id r2) := by
  intro p hp
  rcases mem_setReq hp with rfl | hp'
  · exact h2
  · exact h p hp'

theorem receiptInv_create (input : CreateInput) (now id exp : String)
    (st : Store) (h : receiptInv st) :
    receiptInv (createRequest input now id exp st).store := by
  unfold createRequest
  split
  · exact h
  · split
    · exact h
    · split
      · exact h
      · exact receiptInv_setReq h (by simp [newRequest])

theorem receiptInv_resolve (cfg : Config) (st : Store) (id : String)
    (result : Jval) (reason : Option String) (humanId now : String) (dur : Int)
    (h : receiptInv st) :
    receiptInv (resolve cfg st id result reason humanId now dur).store := by
  unfold resolve
  split
  · exact h
  · split
    · exact h
    · split
      · exact h
      · split
        · exact h
        · split
          · exact h
          · split
            · exact h
            · exact receiptInv_setReq h (by simp)

theorem receiptInv_cancel (st : Store) (id : String) (h : receiptInv st) :
    receiptInv (cancel st id).store := by
  unfold cancel
  split
  · exact h
  next r heq =>
    split
    · exact h
    next hguard =>
      apply receiptInv_setReq h
      have hr := h (id, r) (mem_of_getReq heq)
      have hnc : r.status ≠ "completed" := by
        by_cases hp1 : r.status = "pending"
        · rw [hp1]; decide
        · have h2 : r.status = "assigned" := by
            by_contra h3
            exact hguard ⟨hp1, h3⟩
          rw [h2]; decide
      constructor
      · intro hs
        exact absurd (hr.mp hs) hnc
      · intro hc
        have hc' : ("cancelled" : String) = "completed" := hc
        exact absurd hc' (by decide)

theorem receiptInv_fire (cfg : Config) (st : Store) (id fb act : String)
    (p : Payload) (ts : Nat) (t1 t2 : String) (h : receiptInv st) :
    receiptInv (timeoutFire cfg st id fb act p ts t1 t2).store := by
  unfold timeoutFire
  split
  · exact h
  next r heq =>
    split
    next hpend =>
      split
      · exact receiptInv_setReq h (by simp)
      · apply receiptInv_setReq h
        have hr := h (id, r) (mem_of_getReq heq)
        constructor
        · intro hs
          have hcomp := hr.mp hs
          rw [hpend] at hcomp
          exact absurd hcomp (by decide)
        · intro hc
          have hc' : ("expired" : String) = "completed" := hc
          exact absurd hc' (by decide)
    next hnp =>
      exact h

theorem reachable_receiptInv (cfg : Config) (st : Store)
    (h : Reachable cfg st) : receiptInv st := by
  induction h with
  | init => intro p hp; cases hp
  | createStep st input now id exp _ ih => exact receiptInv_create input now id exp st ih
  | resolveStep st id result reason humanId now dur _ ih =>
      exact receiptInv_resolve cfg st id result reason humanId now dur ih
  | cancelStep st id _ ih => exact receiptInv_cancel st id ih
  | fireStep st id fb act p ts t1 t2 _ ih =>
      exact receiptInv_fire cfg st id fb act p ts t1 t2 ih

theorem statusInv_create (input : CreateInput) (now id exp : String)
    (st : Store) (h : statusInv st) :
    statusInv (createRequest input now id exp st).store := by
  unfold createRequest
  split
  · exact h
  · split
    · exact h
    · split
      · exact h
      · exact statusInv_setReq h (by simp [newRequest])

theorem statusInv_resolve (cfg : Config) (st : Store) (id : String)
    (result : Jval) (reason : Option String) (humanId now : String) (dur : Int)
    (h : statusInv st) :
    statusInv (resolve cfg st id result reason humanId now dur).store := by
  unfold resolve
  split
  · exact h
  · split
    · exact h
    · split
      · exact h
      · split
        · exact h
        · split
          · exact h
          · split
            · exact h
            · exact statusInv_setReq h (by simp)

theorem statusInv_cancel (st : Store) (id : String) (h : statusInv st) :
    statusInv (cancel st id).store := by
  unfold cancel
  split
  · exact h
  · split
    · exact h
    · exact statusInv_setReq h (by simp)

theorem statusInv_fire (cfg : Config) (st : Store) (id fb act : String)
    (p : Payload) (ts : Nat) (t1 t2 : String) (h : statusInv st) :
    statusInv (timeoutFire cfg st id fb act p ts t1 t2).store := by
  unfold timeoutFire
  split
  · exact h
  · split
    · split
      · exact statusInv_setReq h (by simp)
      · exact statusInv_setReq h (by simp)
    · exact h

theorem reachable_statusInv (cfg : Config) (st : Store)
    (h : Reachable cfg st) : statusInv st := by
  induction h with
  | init => intro p hp; cases hp
  | createStep st input now id exp _ ih => exact statusInv_create input now id exp st ih
  | resolveStep st id result reason humanId now dur _ ih =>
      exact statusInv_resolve cfg st id result reason humanId now dur ih
  | cancelStep st id _ ih => exact statusInv_cancel st id ih
  | fireStep st id fb act p ts t1 t2 _ ih =>
      exact statusInv_fire cfg st id fb act p ts t1 t2 ih

/-! ### Concrete fixtures for closed evaluations -/

/-- Concrete configuration for closed evaluations: the identity digest
(injective, so distinct hashed data yield distinct hashes) and the default
development secret. -/
def cfgW : Config := ⟨fun s => s, "hxp-dev-secret-change-me"⟩

def inputW : CreateInput :=
  { action := "DECIDE"
    payload := { question := some "Approve the plan?", options := ["Approve", "Deny"] } }

def rW1 : Request := newRequest inputW "2026-02-06T10:00:00.000Z" "hxp_1" ""

def stW1 : Store :=
  (createRequest inputW "2026-02-06T10:00:00.000Z" "hxp_1" "" []).store

def rcptW : Receipt :=
  resolveReceipt cfgW "hxp_1" (Jval.jstr "Approve") none "dev-human-token"
    "2026-02-06T10:05:00.000Z" 300

def rW2 : Request := { rW1 with status := "completed", receipt := some rcptW }

def stW2 : Store :=
  (resolve cfgW stW1 "hxp_1" (Jval.jstr "Approve") none "dev-human-token"
    "2026-02-06T10:05:00.000Z" 300).store

theorem reachW1 : Reachable cfgW stW1 :=
  Reachable.createStep [] inputW "2026-02-06T10:00:00.000Z" "hxp_1" "" Reachable.init

theorem reachW2 : Reachable cfgW stW2 :=
  Reachable.resolveStep stW1 "hxp_1" (Jval.jstr "Approve") none "dev-human-token"
    "2026-02-06T10:05:00.000Z" 300 reachW1

/-! ### Claims -/

/-- C1: in every reachable engine store — after any sequence of create,
resolve, cancel and timeout-fire steps — a stored request carries a
receipt if and only if its status is `completed`; the operations that set
`completed` install the receipt in the same store update, and every other
status leaves the receipt absent. -/
theorem receipt_iff_completed (cfg : Config) (st : Store) (h : Reachable cfg st) :
    ∀ p ∈ st, ((p : String × Request).2.receipt.isSome ↔ p.2.status = "completed") :=
  reachable_receiptInv cfg st h

/-- Witness for C1 at the completed request stored in the concrete
reachable store `stW2`. -/
theorem receipt_iff_completed_witness :
    rW2.receipt.isSome ↔ rW2.status = "completed" :=
  receipt_iff_completed cfgW stW2 reachW2 ("hxp_1", rW2) (by decide)

/-- C4: for every stored request of a reachable store whose status is
terminal (`completed`, `cancelled`, `failed`, or `expired`), resolve and
cancel return a 409 conflict-class error and leave the store unchanged
with no event published, and a timeout fire leaves the store unchanged
with no event published. -/
theorem terminal_no_mutation (cfg : Config) (st : Store) (id : String)
    (r : Request) (hreach : Reachable cfg st) (hget : getReq st id = some r)
    (hterm : r.status ∈ (["completed", "cancelled", "failed", "expired"] : List String)) :
    (∀ (result : Jval) (reason : Option String) (humanId now : String) (dur : Int),
        (∃ e, (resolve cfg st id result reason humanId now dur).response = Except.error e
            ∧ httpStatus e = 409)
        ∧ (resolve cfg st id result reason humanId now dur).store = st
        ∧ (resolve cfg st id result reason humanId now dur).events = [])
    ∧ ((cancel st id).response = Except.error ApiErr.conflict
        ∧ (cancel st id).store = st ∧ (cancel st id).events = [])
    ∧ (∀ (fb act : String) (p : Payload) (ts : Nat) (t1 t2 : String),
        (timeoutFire cfg st id fb act p ts t1 t2).store = st
        ∧ (timeoutFire cfg st id fb act p ts t1 t2).events = []) := by
  have hstat := reachable_statusInv cfg st hreach (id, r) (mem_of_getReq hget)
  simp only [List.mem_cons, List.not_mem_nil, or_false] at hstat hterm
  have hcases : r.status = "completed" ∨ r.status = "cancelled" ∨ r.status = "expired" := by
    rcases hstat with h1 | h1 | h1 | h1
    · exfalso
      rw [h1] at hterm
      rcases hterm with h2 | h2 | h2 | h2 <;> exact absurd h2 (by decide)
    · exact Or.inl h1
    · exact Or.inr (Or.inl h1)
    · exact Or.inr (Or.inr h1)
  refine ⟨?_, ?_, ?_⟩
  · intro result reason humanId now dur
    rcases hcases with hc | hc | hc
    · have hres : resolve cfg st id result reason humanId now dur
          = ⟨Except.error ApiErr.conflict, st, []⟩ := by
        simp [resolve, hget, hc]
      rw [hres]
      exact ⟨⟨ApiErr.conflict, rfl, rfl⟩, rfl, rfl⟩
    · have hres : resolve cfg st id result reason humanId now dur
          = ⟨Except.error ApiErr.conflict, st, []⟩ := by
        simp [resolve, hget, hc]
      rw [hres]
      exact ⟨⟨ApiErr.conflict, rfl, rfl⟩, rfl, rfl⟩
    · have hres : resolve cfg st id result reason humanId now dur
          = ⟨Except.error ApiErr.expiredConflict, st, []⟩ := by
        simp [resolve, hget, hc]
      rw [hres]
      exact ⟨⟨ApiErr.expiredConflict, rfl, rfl⟩, rfl, rfl⟩
  · have hres : cancel st id = ⟨Except.error ApiErr.conflict, st, []⟩ := by
      rcases hcases with hc | hc | hc <;> simp [cancel, hget, hc]
    rw [hres]
    exact ⟨rfl, rfl, rfl⟩
  · intro fb act p ts t1 t2
    have hres : timeoutFire cfg st id fb act p ts t1 t2 = ⟨st, []⟩ := by
      rcases hcases with hc | hc | hc <;> simp [timeoutFire, hget, hc]
    rw [hres]
    exact ⟨rfl, rfl⟩

/-- Witness for C4 at the concrete completed request of `stW2`. -/
theorem terminal_no_mutation_witness :
    ((cancel stW2 "hxp_1").response = Except.error ApiErr.conflict
      ∧ (cancel stW2 "hxp_1").store = stW2)
    ∧ (resolve cfgW stW2 "hxp_1" (Jval.jstr "Deny") none "dev-human-token" "t" 0).store = stW2
    ∧ (timeoutFire cfgW stW2 "hxp_1" "pause" "DECIDE" inputW.payload 0 "t1" "t2").store = stW2 := by
  have h := terminal_no_mutation cfgW stW2 "hxp_1" rW2 reachW2 rfl (by decide)
  exact ⟨⟨h.2.1.1, h.2.1.2.1⟩,
    (h.1 (Jval.jstr "Deny") none "dev-human-token" "t" 0).2.1,
    (h.2.2 "pause" "DECIDE" inputW.payload 0 "t1" "t2").1⟩

/-- Evaluation of the timeout callback on a stored pending request. -/
theorem timeoutFire_pending_eq (cfg : Config) (st : Store) (requestId fb act : String)
    (p : Payload) (ts : Nat) (t1 t2 : String) (r : Request)
    (hget : getReq st requestId = some r) (hpend : r.status = "pending") :
    timeoutFire cfg st requestId fb act p ts t1 t2
      = if fb = "default" ∧ act = "DECIDE" ∧ truthyStr p.default_option then
          ⟨setReq st requestId
              { r with
                status := "completed",
                receipt := some (syntheticReceipt cfg requestId p ts t1 t2) },
            [⟨"completed", some (syntheticReceipt cfg requestId p ts t1 t2)⟩]⟩
        else ⟨setReq st requestId { r with status := "expired" }, [⟨"expired", none⟩]⟩ := by
  simp [timeoutFire, hget, hpend]

def inputFail : CreateInput :=
  { action := "DECIDE", timeout_seconds := 5, fallback := "fail"
    payload := { question := some "Proceed?", options := ["Yes", "No"] } }

def stFail : Store :=
  (createRequest inputFail "2026-02-06T10:00:00.000Z" "hxp_f"
    "2026-02-06T10:00:05.000Z" []).store

/-- C2 (code-bug evaluation): when the timeout fires for a pending request
with fallback `fail`, the stored status becomes `expired` — the callback
has no `failed` branch and records no timeout reason — contrary to the
specified transition to `failed` with reason `timeout`. -/
theorem timeout_fail_fallback_expires :
    ((getReq (timeoutFire cfgW stFail "hxp_f" "fail" "DECIDE" inputFail.payload 5
        "2026-02-06T10:00:05.000Z" "2026-02-06T10:00:05.000Z").store "hxp_f").map
      Request.status) = some "expired"
    ∧ (some "expired" : Option String) ≠ some "failed" :=
  ⟨rfl, by decide⟩

def inputPause : CreateInput :=
  { action := "APPROVE", timeout_seconds := 3, fallback := "pause"
    payload := { item := some "Expense" } }

def stPause : Store :=
  (createRequest inputPause "2026-02-06T10:00:00.000Z" "hxp_p"
    "2026-02-06T10:00:03.000Z" []).store

/-- C3 (code-bug evaluation): a timeout fire on a pending request with
fallback `pause` is not a no-op: the stored status becomes `expired` and
an `expired` lifecycle event is published for the fire. -/
theorem timeout_pause_fallback_not_noop :
    ((getReq (timeoutFire cfgW stPause "hxp_p" "pause" "APPROVE" inputPause.payload 3
        "t1" "t2").store "hxp_p").map Request.status) = some "expired"
    ∧ (some "expired" : Option String) ≠ some "pending"
    ∧ (timeoutFire cfgW stPause "hxp_p" "pause" "APPROVE" inputPause.payload 3
        "t1" "t2").events = [⟨"expired", none⟩]
    ∧ ([(⟨"expired", none⟩ : Event)] : List Event) ≠ [] :=
  ⟨rfl, by decide, rfl, by decide⟩

def inputDflt : CreateInput :=
  { action := "DECIDE", timeout_seconds := 1, fallback := "default"
    payload := { question := some "Choose", options := ["Approve", "Deny"],
                 default_option := some "Deny" } }

def rDflt : Request :=
  newRequest inputDflt "2026-02-06T10:00:00.000Z" "hxp_d" "2026-02-06T10:00:01.000Z"

def stDflt : Store :=
  (createRequest inputDflt "2026-02-06T10:00:00.000Z" "hxp_d"
    "2026-02-06T10:00:01.000Z" []).store

def inputDflt0 : CreateInput :=
  { inputDflt with payload := { inputDflt.payload with default_option := some "" } }

def stDflt0 : Store :=
  (createRequest inputDflt0 "2026-02-06T10:00:00.000Z" "hxp_d0"
    "2026-02-06T10:00:01.000Z" []).store

/-- C5 counterexample: a pending DECIDE request with fallback `default`
whose `default_option` is present in the payload but is the empty string
(falsy in JS) expires instead of completing, although the claim's only
excluded cases are a non-DECIDE action or a missing `default_option`. -/
theorem timeout_default_present_empty_expires :
    inputDflt0.payload.default_option.isSome = true
    ∧ ((getReq (timeoutFire cfgW stDflt0 "hxp_d0" "default" "DECIDE"
        inputDflt0.payload 1 "t1" "t2").store "hxp_d0").map Request.status)
      = some "expired"
    ∧ (some "expired" : Option String) ≠ some "completed" :=
  ⟨rfl, rfl, by decide⟩

/-- C5 (amended): when the timeout fires for a still-pending DECIDE request
with fallback `default` and a truthy (present and non-empty)
`default_option`, the request completes in that same fire with the
synthetic receipt (result = `default_option`, completed_by = `system`,
reason = `Timeout — default option applied`); for fallback `default` in
any other case (non-DECIDE action, or missing or empty `default_option`)
the request transitions to `expired`. -/
theorem timeout_default_fallback (cfg : Config) (st : Store) (id : String)
    (r : Request) (hget : getReq st id = some r) (hpend : r.status = "pending")
    (t1 t2 : String) :
    (∀ s : String, r.fallback = "default" → r.action = "DECIDE" →
      r.payload.default_option = some s → s ≠ "" →
      getReq (timeoutFire cfg st id r.fallback r.action r.payload
          r.timeout_seconds t1 t2).store id
        = some
            { r with
              status := "completed",
              receipt := some (syntheticReceipt cfg id r.payload r.timeout_seconds t1 t2) }
      ∧ (syntheticReceipt cfg id r.payload r.timeout_seconds t1 t2).result = Jval.jstr s
      ∧ (syntheticReceipt cfg id r.payload r.timeout_seconds t1 t2).completed_by = "system"
      ∧ (syntheticReceipt cfg id r.payload r.timeout_seconds t1 t2).reason
          = some "Timeout — default option applied")
    ∧ ((r.fallback = "default"
        ∧ ¬(r.action = "DECIDE" ∧ truthyStr r.payload.default_option)) →
      getReq (timeoutFire cfg st id r.fallback r.action r.payload
          r.timeout_seconds t1 t2).store id
        = some { r with status := "expired" }) := by
  have heval := timeoutFire_pending_eq cfg st id r.fallback r.action r.payload
    r.timeout_seconds t1 t2 r hget hpend
  constructor
  · intro s hfb hact hdo hs
    have htr : truthyStr r.payload.default_option = true := by
      rw [hdo]
      simp [truthyStr, hs]
    rw [heval, if_pos ⟨hfb, hact, htr⟩]
    refine ⟨getReq_setReq_self st id _, ?_, rfl, rfl⟩
    simp [syntheticReceipt, hdo]
  · intro hcond
    have hneg : ¬(r.fallback = "default" ∧ r.action = "DECIDE"
        ∧ truthyStr r.payload.default_option) := by
      intro hx
      exact hcond.2 ⟨hx.2.1, hx.2.2⟩
    rw [heval, if_neg hneg]
    exact getReq_setReq_self st id _

/-- Witness for C5 at a concrete pending DECIDE request with
`default_option = "Deny"` and, for the degrade branch, at the concrete
pending APPROVE request with fallback `pause`. -/
theorem timeout_default_fallback_witness :
    getReq (timeoutFire cfgW stDflt "hxp_d" rDflt.fallback rDflt.action rDflt.payload
        rDflt.timeout_seconds "2026-02-06T10:00:01.000Z" "2026-02-06T10:00:01.000Z").store "hxp_d"
      = some
          { rDflt with
            status := "completed",
            receipt := some (syntheticReceipt cfgW "hxp_d" rDflt.payload rDflt.timeout_seconds
              "2026-02-06T10:00:01.000Z" "2026-02-06T10:00:01.000Z") }
    ∧ (syntheticReceipt cfgW "hxp_d" rDflt.payload rDflt.timeout_seconds
        "2026-02-06T10:00:01.000Z" "2026-02-06T10:00:01.000Z").completed_by = "system" := by
  have h := timeout_default_fallback cfgW stDflt "hxp_d" rDflt rfl rfl
    "2026-02-06T10:00:01.000Z" "2026-02-06T10:00:01.000Z"
  have h1 := h.1 "Deny" rfl rfl rfl (by decide)
  exact ⟨h1.1, h1.2.2.1⟩

/-- C6: for a stored DECIDE request in status `pending` or `assigned`,
resolving with a non-null result that is not an element of
`payload.options` always fails with the 422 `invalid_result` error and no
mutation, while resolving with a result equal (exact string match) to one
of `payload.options` always succeeds and completes the request. -/
theorem decide_resolution (cfg : Config) (st : Store) (id : String) (r : Request)
    (hget : getReq st id = some r) (hact : r.action = "DECIDE")
    (hst : r.status = "pending" ∨ r.status = "assigned")
    (result : Jval) (reason : Option String) (humanId now : String) (dur : Int) :
    (result ≠ Jval.jnull → includesJ r.payload.options result = false →
      (resolve cfg st id result reason humanId now dur).response
        = Except.error (ApiErr.invalidResult
            ("Result must be one of: " ++ String.intercalate ", " r.payload.options))
      ∧ httpStatus (ApiErr.invalidResult
            ("Result must be one of: " ++ String.intercalate ", " r.payload.options)) = 422
      ∧ (resolve cfg st id result reason humanId now dur).store = st)
    ∧ (∀ s : String, result = Jval.jstr s → s ∈ r.payload.options →
      (resolve cfg st id result reason humanId now dur).response
        = Except.ok (resolveReceipt cfg id result reason humanId now dur)
      ∧ getReq (resolve cfg st id result reason humanId now dur).store id
        = some
            { r with
              status := "completed",
              receipt := some (resolveReceipt cfg id result reason humanId now dur) }) := by
  have h1 : ¬(r.status = "completed" ∨ r.status = "cancelled") := by
    rcases hst with h | h <;> rw [h] <;> decide
  have h2 : r.status ≠ "expired" := by
    rcases hst with h | h <;> rw [h] <;> decide
  constructor
  · intro hnn hni
    have hv : validateResult r result
        = some ("Result must be one of: " ++ String.intercalate ", " r.payload.options) := by
      simp [validateResult, hact, hni]
    have hres : resolve cfg st id result reason humanId now dur
        = ⟨Except.error (ApiErr.invalidResult
            ("Result must be one of: " ++ String.intercalate ", " r.payload.options)),
          st, []⟩ := by
      simp [resolve, hget, h1, h2, hnn, hv]
    rw [hres]
    exact ⟨rfl, rfl, rfl⟩
  · intro s hres hmem
    subst hres
    have hinc : includesJ r.payload.options (Jval.jstr s) = true := by
      simp only [includesJ]
      exact List.elem_iff.mpr hmem
    have hv : validateResult r (Jval.jstr s) = none := by
      simp [validateResult, hact, hinc]
    have hnr : ¬(r.action = "APPROVE" ∧ Jval.jstr s = Jval.jstr "rejected"
        ∧ r.payload.reject_requires_reason ∧ ¬ truthyStr reason) := by
      intro hx
      rw [hact] at hx
      exact absurd hx.1 (by decide)
    have hres2 : resolve cfg st id (Jval.jstr s) reason humanId now dur
        = ⟨Except.ok (resolveReceipt cfg id (Jval.jstr s) reason humanId now dur),
            setReq st id
              { r with
                status := "completed",
                receipt := some (resolveReceipt cfg id (Jval.jstr s) reason humanId now dur) },
            [⟨"completed", some (resolveReceipt cfg id (Jval.jstr s) reason humanId now dur)⟩]⟩ := by
      simp [resolve, hget, h1, h2, hv, hnr]
      intro hx
      rw [hact] at hx
      exact absurd hx (by decide)
    rw [hres2]
    exact ⟨rfl, getReq_setReq_self st id _⟩

/-- Witness for C6 at the concrete pending DECIDE request of `stW1`:
an off-options result is rejected with 422 and the store is unchanged,
while the in-options result `Approve` succeeds. -/
theorem decide_resolution_witness :
    (resolve cfgW stW1 "hxp_1" (Jval.jstr "Maybe") none "dev-human-token" "t" 0).store = stW1
    ∧ (resolve cfgW stW1 "hxp_1" (Jval.jstr "Approve") none "dev-human-token"
        "2026-02-06T10:05:00.000Z" 300).response
      = Except.ok (resolveReceipt cfgW "hxp_1" (Jval.jstr "Approve") none "dev-human-token"
          "2026-02-06T10:05:00.000Z" 300) := by
  have ha := (decide_resolution cfgW stW1 "hxp_1" rW1 rfl rfl (Or.inl rfl)
    (Jval.jstr "Maybe") none "dev-human-token" "t" 0).1 (by decide) (by decide)
  have hb := (decide_resolution cfgW stW1 "hxp_1" rW1 rfl rfl (Or.inl rfl)
    (Jval.jstr "Approve") none "dev-human-token" "2026-02-06T10:05:00.000Z" 300).2
    "Approve" rfl (by decide)
  exact ⟨ha.2.2, hb.1⟩

/-- C7: for a stored pending APPROVE request with
`payload.reject_requires_reason = true`, resolving with result `rejected`
and no reason always fails with the 422 `reason_required` error and no
mutation, while resolving with result `rejected` and any non-empty reason
succeeds and completes the request. -/
theorem approve_reject_reason (cfg : Config) (st : Store) (id : String) (r : Request)
    (hget : getReq st id = some r) (hact : r.action = "APPROVE")
    (hst : r.status = "pending") (hrr : r.payload.reject_requires_reason = true)
    (humanId now : String) (dur : Int) :
    ((resolve cfg st id (Jval.jstr "rejected") none humanId now dur).response
        = Except.error ApiErr.reasonRequired
      ∧ httpStatus ApiErr.reasonRequired = 422
      ∧ (resolve cfg st id (Jval.jstr "rejected") none humanId now dur).store = st
      ∧ (resolve cfg st id (Jval.jstr "rejected") none humanId now dur).events = [])
    ∧ (∀ s : String, s ≠ "" →
      (resolve cfg st id (Jval.jstr "rejected") (some s) humanId now dur).response
        = Except.ok (resolveReceipt cfg id (Jval.jstr "rejected") (some s) humanId now dur)
      ∧ getReq (resolve cfg st id (Jval.jstr "rejected") (some s) humanId now dur).store id
        = some
            { r with
              status := "completed",
              receipt := some (resolveReceipt cfg id (Jval.jstr "rejected") (some s)
                humanId now dur) }) := by
  have h1 : ¬(r.status = "completed" ∨ r.status = "cancelled") := by
    rw [hst]; decide
  have h2 : r.status ≠ "expired" := by
    rw [hst]; decide
  have hv : validateResult r (Jval.jstr "rejected") = none := by
    simp [validateResult, hact]
  constructor
  · have hcond : r.action = "APPROVE" ∧ Jval.jstr "rejected" = Jval.jstr "rejected"
        ∧ r.payload.reject_requires_reason ∧ ¬ truthyStr (none : Option String) :=
      ⟨hact, rfl, hrr, by decide⟩
    have hres : resolve cfg st id (Jval.jstr "rejected") none humanId now dur
        = ⟨Except.error ApiErr.reasonRequired, st, []⟩ := by
      simp [resolve, hget, h1, h2, hv, hcond.2.2]
      exact hact
    rw [hres]
    exact ⟨rfl, rfl, rfl, rfl⟩
  · intro s hs
    have hnr : ¬(r.action = "APPROVE" ∧ Jval.jstr "rejected" = Jval.jstr "rejected"
        ∧ r.payload.reject_requires_reason ∧ ¬ truthyStr (some s)) := by
      intro hx
      exact hx.2.2.2 (by simp [truthyStr, hs])
    have hres2 : resolve cfg st id (Jval.jstr "rejected") (some s) humanId now dur
        = ⟨Except.ok (resolveReceipt cfg id (Jval.jstr "rejected") (some s) humanId now dur),
            setReq st id
              { r with
                status := "completed",
                receipt := some (resolveReceipt cfg id (Jval.jstr "rejected") (some s)
                  humanId now dur) },
            [⟨"completed", some (resolveReceipt cfg id (Jval.jstr "rejected") (some s)
              humanId now dur)⟩]⟩ := by
      simp [resolve, hget, h1, h2, hv, hnr]
      intro _ _
      simp [truthyStr, hs]
    rw [hres2]
    exact ⟨rfl, getReq_setReq_self st id _⟩

def inputAppr : CreateInput :=
  { action := "APPROVE"
    payload := { item := some "Expense #1", reject_requires_reason := true } }

def rAppr : Request := newRequest inputAppr "2026-02-06T10:00:00.000Z" "hxp_a" ""

def stAppr : Store :=
  (createRequest inputAppr "2026-02-06T10:00:00.000Z" "hxp_a" "" []).store

/-- Witness for C7 at a concrete pending APPROVE request with
`reject_requires_reason = true`: a reason-less rejection is refused with
422 and no mutation, and a rejection with reason succeeds. -/
theorem approve_reject_reason_witness :
    ((resolve cfgW stAppr "hxp_a" (Jval.jstr "rejected") none "dev-human-token" "t" 0).response
      = Except.error ApiErr.reasonRequired
    ∧ (resolve cfgW stAppr "hxp_a" (Jval.jstr "rejected") none "dev-human-token" "t" 0).store
      = stAppr)
    ∧ (resolve cfgW stAppr "hxp_a" (Jval.jstr "rejected") (some "too costly")
        "dev-human-token" "t" 0).response
      = Except.ok (resolveReceipt cfgW "hxp_a" (Jval.jstr "rejected") (some "too costly")
          "dev-human-token" "t" 0) := by
  have h := approve_reject_reason cfgW stAppr "hxp_a" rAppr rfl rfl rfl rfl
    "dev-human-token" "t" 0
  exact ⟨⟨h.1.1, h.1.2.2.1⟩, (h.2 "too costly" (by decide)).1⟩

def stExpired : Store :=
  (timeoutFire cfgW stFail "hxp_f" "fail" "DECIDE" inputFail.payload 5
    "2026-02-06T10:00:05.000Z" "2026-02-06T10:00:05.000Z").store

/-- C8 counterexample: cancelling a request whose stored status is
`expired` is rejected with the generic `conflict` error — the same error
the other terminal statuses receive — not with the distinct `expired`
conflict the claim asserts for cancel. -/
theorem cancel_expired_generic_conflict :
    ((getReq stExpired "hxp_f").map Request.status) = some "expired"
    ∧ (cancel stExpired "hxp_f").response = Except.error ApiErr.conflict
    ∧ ApiErr.conflict ≠ ApiErr.expiredConflict :=
  ⟨rfl, rfl, by decide⟩

/-- C8 (amended): resolving a request whose stored status is `expired` is
rejected with the distinct `expired` conflict (409, distinguishable from
the generic conflict), while cancelling it is rejected with the generic
`conflict` error; neither mutates the store. -/
theorem expired_conflict_distinct (cfg : Config) (st : Store) (id : String)
    (r : Request) (hget : getReq st id = some r) (hexp : r.status = "expired")
    (result : Jval) (reason : Option String) (humanId now : String) (dur : Int) :
    ((resolve cfg st id result reason humanId now dur).response
        = Except.error ApiErr.expiredConflict
      ∧ httpStatus ApiErr.expiredConflict = 409
      ∧ (resolve cfg st id result reason humanId now dur).store = st)
    ∧ ((cancel st id).response = Except.error ApiErr.conflict
      ∧ (cancel st id).store = st)
    ∧ ApiErr.expiredConflict ≠ ApiErr.conflict := by
  have hres : resolve cfg st id result reason humanId now dur
      = ⟨Except.error ApiErr.expiredConflict, st, []⟩ := by
    simp [resolve, hget, hexp]
  have hcan : cancel st id = ⟨Except.error ApiErr.conflict, st, []⟩ := by
    simp [cancel, hget, hexp]
  rw [hres, hcan]
  exact ⟨⟨rfl, rfl, rfl⟩, ⟨rfl, rfl⟩, by decide⟩

/-- Witness for C8 at the concrete expired request of `stExpired`. -/
theorem expired_conflict_distinct_witness :
    (resolve cfgW stExpired "hxp_f" (Jval.jstr "Yes") none "dev-human-token" "t" 0).response
      = Except.error ApiErr.expiredConflict
    ∧ (cancel stExpired "hxp_f").store = stExpired := by
  have h := expired_conflict_distinct cfgW stExpired "hxp_f"
    { (newRequest inputFail "2026-02-06T10:00:00.000Z" "hxp_f" "2026-02-06T10:00:05.000Z") with
      status := "expired" }
    rfl rfl (Jval.jstr "Yes") none "dev-human-token" "t" 0
  exact ⟨h.1.1, h.2.1.2⟩

/-- C9 (code-bug evaluation): on the fallback-default timeout path the
receipt the engine stores carries `completed_at` from the first clock read
while its `evidence_hash` is computed from a second, separate clock read;
at a fire where the clock advances between the two reads (instantiated
with the injective identity digest) the stored hash therefore differs from
the digest recomputed over the receipt's own `completed_at`, contrary to
the claimed equation.  The final conjunct shows the human-resolution path,
which reuses one `completedAt` value, does satisfy the equation. -/
theorem synthetic_receipt_hash_mismatch :
    ((getReq (timeoutFire cfgW stDflt "hxp_d" "default" "DECIDE" inputDflt.payload 1
        "2026-02-06T10:00:01.000Z" "2026-02-06T10:00:01.001Z").store "hxp_d").bind
      Request.receipt)
      = some (syntheticReceipt cfgW "hxp_d" inputDflt.payload 1
          "2026-02-06T10:00:01.000Z" "2026-02-06T10:00:01.001Z")
    ∧ (syntheticReceipt cfgW "hxp_d" inputDflt.payload 1
        "2026-02-06T10:00:01.000Z" "2026-02-06T10:00:01.001Z").completed_at
      = "2026-02-06T10:00:01.000Z"
    ∧ (syntheticReceipt cfgW "hxp_d" inputDflt.payload 1
        "2026-02-06T10:00:01.000Z" "2026-02-06T10:00:01.001Z").evidence_hash
      = generateEvidenceHash cfgW "hxp_d" (Jval.jstr "Deny") "2026-02-06T10:00:01.001Z"
    ∧ (syntheticReceipt cfgW "hxp_d" inputDflt.payload 1
        "2026-02-06T10:00:01.000Z" "2026-02-06T10:00:01.001Z").evidence_hash
      ≠ generateEvidenceHash cfgW "hxp_d" (Jval.jstr "Deny") "2026-02-06T10:00:01.000Z"
    ∧ (∀ (cfg : Config) (id : String) (result : Jval) (reason : Option String)
        (humanId now : String) (dur : Int),
        (resolveReceipt cfg id result reason humanId now dur).evidence_hash
          = generateEvidenceHash cfg id result
              ((resolveReceipt cfg id result reason humanId now dur).completed_at)) :=
  ⟨rfl, rfl, rfl, by decide, fun _ _ _ _ _ _ _ => rfl⟩

theorem mem_inboxBase (st : Store) (status : String) (r : Request) :
    r ∈ inboxBase st status
      ↔ r ∈ st.map (fun p => p.2) ∧ (r.status = status ∨ r.status = "assigned") := by
  simp [inboxBase, List.mem_filter]

theorem mem_applyPrioFilter (pq : Option String) (l : List Request) (r : Request) :
    r ∈ applyPrioFilter pq l
      ↔ r ∈ l ∧ (∀ p, pq = some p → p ≠ "" → r.priority = p) := by
  cases pq with
  | none => simp [applyPrioFilter]
  | some p =>
      by_cases hp : p = ""
      · subst hp
        simp [applyPrioFilter]
      · simp only [applyPrioFilter, if_pos hp, List.mem_filter, decide_eq_true_eq]
        constructor
        · rintro ⟨hl, hpr⟩
          exact ⟨hl, fun p2 hpk hne => by rw [← Option.some.inj hpk]; exact hpr⟩
        · rintro ⟨hl, hall⟩
          exact ⟨hl, hall p rfl hp⟩

theorem mem_applyActionFilter (aq : Option String) (l : List Request) (r : Request) :
    r ∈ applyActionFilter aq l
      ↔ r ∈ l ∧ (∀ a, aq = some a → a ≠ "" → r.action = a) := by
  cases aq with
  | none => simp [applyActionFilter]
  | some a =>
      by_cases ha : a = ""
      · subst ha
        simp [applyActionFilter]
      · simp only [applyActionFilter, if_pos ha, List.mem_filter, decide_eq_true_eq]
        constructor
        · rintro ⟨hl, hpr⟩
          exact ⟨hl, fun a2 hak hne => by rw [← Option.some.inj hak]; exact hpr⟩
        · rintro ⟨hl, hall⟩
          exact ⟨hl, hall a rfl ha⟩

/-- C10: for an inbox call with an explicit status filter `s`, the returned
list consists of exactly the stored requests whose status equals `s` or
equals `assigned` — the `assigned` inclusion applies for every requested
`s`, not only for the default filter — further narrowed by the optional
(truthy) priority and action filters; and the `unresolved` count in the
response equals the number of returned requests whose status is
`pending`. -/
theorem inbox_explicit_status (st : Store) (s : String) (pq aq : Option String)
    (r : Request) :
    (r ∈ (inbox st (some s) pq aq).requests ↔
      (r ∈ st.map (fun p => p.2) ∧ (r.status = s ∨ r.status = "assigned")
        ∧ (∀ p, pq = some p → p ≠ "" → r.priority = p)
        ∧ (∀ a, aq = some a → a ≠ "" → r.action = a)))
    ∧ (inbox st (some s) pq aq).unresolved
      = ((inbox st (some s) pq aq).requests.filter
          (fun q => decide (q.status = "pending"))).length := by
  constructor
  · rw [show (inbox st (some s) pq aq).requests
        = List.insertionSort (fun a b => cmpInbox a b ≤ 0)
            (applyActionFilter aq (applyPrioFilter pq (inboxBase st s))) from rfl]
    rw [(List.perm_insertionSort _ _).mem_iff, mem_applyActionFilter,
      mem_applyPrioFilter, mem_inboxBase]
    tauto
  · rfl
